import Mathlib

/-!
# Shallow embedding of `the_front_office.clients.nba.client` (NBAClient)

This file embeds the NBA data-client and cache subsystem of the repository
(`src/the_front_office/clients/nba/client.py`) and proves the specification
claims about it.

Modelling conventions:
* Wall-clock instants (`datetime`) are modelled at minute granularity as a
  calendar-day index (`ℤ`) plus a minute-of-day (`ℕ`); `datetime` comparison
  is lexicographic on (date, time-of-day), which the `DateTime` order mirrors.
* The stored `updated_at` string is modelled by the outcome of
  `datetime.fromisoformat` on it: empty string, non-empty unparseable string,
  or a parsed instant (`UpdatedAt`).
* Numeric stat fields (Python floats) are modelled exactly as rationals.
* `GAME_DATE` values served by the upstream league game log are ISO
  `YYYY-MM-DD` strings, whose lexicographic order (used by `games.sort`)
  coincides with chronological order; they are modelled as day indices (`ℕ`).
* Python dicts are modelled as insertion-ordered association lists.
* Network fetches are modelled by an oracle giving each attempt's outcome
  (`none` = the attempt raised, `some rows` = the rows it returned), and the
  side effects of the retry loop are recorded as an explicit event trace.
-/

namespace TFO

/-- A wall-clock instant: calendar-day index and minute of day (0 ≤ minute < 1440
in intended use; the bound is not needed by any proof). -/
structure DateTime where
  day : ℤ
  minute : ℕ
  deriving DecidableEq, Repr

/-- Boolean `datetime` strict comparison: lexicographic on (date, time). -/
def dtLtB (a b : DateTime) : Bool :=
  decide (a.day < b.day) || (decide (a.day = b.day) && decide (a.minute < b.minute))

/-- Boolean `datetime` non-strict comparison. -/
def dtLeB (a b : DateTime) : Bool :=
  dtLtB a b || decide (a = b)

/-- Propositional `datetime` strict comparison (spec-side formulation). -/
def dtlt (a b : DateTime) : Prop :=
  a.day < b.day ∨ (a.day = b.day ∧ a.minute < b.minute)

/-- Propositional `datetime` non-strict comparison (spec-side formulation). -/
def dtle (a b : DateTime) : Prop :=
  dtlt a b ∨ a = b

instance (a b : DateTime) : Decidable (dtlt a b) := by
  unfold dtlt; infer_instance

instance (a b : DateTime) : Decidable (dtle a b) := by
  unfold dtle; infer_instance

/-- The `updated_at` string of a cache partition, represented by the outcome of
`datetime.fromisoformat` on it: `empty` (falsy string), `invalid` (non-empty but
`ValueError` on parse), or `valid` (parses to an instant). -/
inductive UpdatedAt where
  | empty
  | invalid
  | valid (dt : DateTime)
  deriving DecidableEq, Repr

/-- Source constant `SCHEDULE_TTL_HOURS = 24`. -/
def SCHEDULE_TTL_HOURS : ℚ := 24

/-- Source constant `PLAYER_STATS_INVALIDATION_TIMES = [dt_time(1, 0), dt_time(15, 0)]`,
as minutes of day: 1:00 AM and 3:00 PM. -/
def PLAYER_STATS_INVALIDATION_TIMES : List ℕ := [60, 900]

/-- Embeds `NBAClient._is_league_gamelog_stale`, as a function of the stored
`updated_at` and of `datetime.now()`. -/
def is_league_gamelog_stale (updated : UpdatedAt) (now : DateTime) : Bool :=
  match updated with
  | .empty => true
  | .invalid => true
  | .valid updated_at =>
    if updated_at.day < now.day then
      true
    else
      PLAYER_STATS_INVALIDATION_TIMES.any fun boundary_time =>
        let boundary_dt : DateTime := ⟨now.day, boundary_time⟩
        dtLtB updated_at boundary_dt && dtLeB boundary_dt now

/-- Embeds `NBAClient._get_schedule_age_hours`, as a function of the schedule
partition's `updated_at` and of `datetime.now()`. -/
def get_schedule_age_hours (updated : UpdatedAt) (now : DateTime) : ℚ :=
  match updated with
  | .empty => 999
  | .invalid => 999
  | .valid ts => (((now.day - ts.day) * 1440 + ((now.minute : ℤ) - (ts.minute : ℤ)) : ℤ) : ℚ) / 60

/-- One row of the cached league game log (`GameLogRecord` in `types.py`).
`GAME_DATE` is a chronological day index (see the header comment). -/
structure GameLogRecord where
  GAME_DATE : ℕ
  PTS : ℚ
  REB : ℚ
  AST : ℚ
  STL : ℚ
  BLK : ℚ
  TOV : ℚ
  FG3M : ℚ
  FGA : ℚ
  FGM : ℚ
  FTA : ℚ
  FTM : ℚ
  deriving DecidableEq, Repr

/-- Embeds `NineCatStats` from `types.py`. -/
structure NineCatStats where
  PTS : ℚ
  REB : ℚ
  AST : ℚ
  STL : ℚ
  BLK : ℚ
  TOV : ℚ
  FG3M : ℚ
  FG_PCT : ℚ
  FT_PCT : ℚ
  deriving DecidableEq, Repr

/-- Round a rational to the nearest integer, ties to even
(the semantics of Python's builtin `round`). -/
def roundHalfEven (q : ℚ) : ℤ :=
  let n := q.num
  let d : ℤ := q.den
  let f := Int.fdiv n d
  if 2 * (n - f * d) = d then (if f % 2 = 0 then f else f + 1)
  else Int.fdiv (2 * n + d) (2 * d)

/-- Python `round(x, p)`: round to `p` decimal places, ties to even. -/
def roundTo (p : ℕ) (q : ℚ) : ℚ :=
  (roundHalfEven (q * 10 ^ p) : ℚ) / 10 ^ p

/-- Sum of a stat field over a list of records. -/
def statSum (f : GameLogRecord → ℚ) (records : List GameLogRecord) : ℚ :=
  (records.map f).sum

/-- Arithmetic mean of a stat field over the records (pandas `df.mean()`
column value; only used on non-empty record lists, where it agrees with
pandas). -/
def statMean (f : GameLogRecord → ℚ) (records : List GameLogRecord) : ℚ :=
  statSum f records / (records.length : ℚ)

/-- Embeds `NBAClient._extract_9cat_from_records`. -/
def extract_9cat_from_records (records : List GameLogRecord) : NineCatStats :=
  let fga_sum := statSum (·.FGA) records
  let fgm_sum := statSum (·.FGM) records
  let fta_sum := statSum (·.FTA) records
  let ftm_sum := statSum (·.FTM) records
  let fg_pct := if fga_sum > 0 then fgm_sum / fga_sum else 0
  let ft_pct := if fta_sum > 0 then ftm_sum / fta_sum else 0
  { PTS := roundTo 1 (statMean (·.PTS) records)
    REB := roundTo 1 (statMean (·.REB) records)
    AST := roundTo 1 (statMean (·.AST) records)
    STL := roundTo 1 (statMean (·.STL) records)
    BLK := roundTo 1 (statMean (·.BLK) records)
    TOV := roundTo 1 (statMean (·.TOV) records)
    FG3M := roundTo 1 (statMean (·.FG3M) records)
    FG_PCT := roundTo 3 fg_pct
    FT_PCT := roundTo 3 ft_pct }

/-- Embeds `PlayerStats` from `types.py`: a `total=False` typed dict whose only
possible keys are `last_5`, `last_10`, `last_15`; an absent key is `none`. -/
structure PlayerStats where
  last_5 : Option NineCatStats := none
  last_10 : Option NineCatStats := none
  last_15 : Option NineCatStats := none
  deriving DecidableEq, Repr

/-- Python truthiness of the `PlayerStats` dict: empty (no keys) is falsy. -/
def PlayerStats.isEmptyDict (s : PlayerStats) : Bool :=
  decide (s.last_5 = none) && decide (s.last_10 = none) && decide (s.last_15 = none)

/-- Key lookup `stats_dict.get(f"last_{n}")`. -/
def PlayerStats.window (s : PlayerStats) (n : ℕ) : Option NineCatStats :=
  if n = 5 then s.last_5
  else if n = 10 then s.last_10
  else if n = 15 then s.last_15
  else none

/-- Key assignment `stats_dict[f"last_{n}"] = v`. -/
def PlayerStats.setWindow (s : PlayerStats) (n : ℕ) (v : NineCatStats) : PlayerStats :=
  if n = 5 then { s with last_5 := some v }
  else if n = 10 then { s with last_10 := some v }
  else if n = 15 then { s with last_15 := some v }
  else s

/-- The gamelog partition (`LeagueGamelogCache`): insertion-ordered map from
player name to game records, plus `updated_at`. -/
structure LeagueGamelogCache where
  games : List (String × List GameLogRecord)
  updated_at : UpdatedAt
  deriving DecidableEq, Repr

/-- One schedule entry (`GameRecord` in `types.py`): the game date as a day
index (the source stores the ISO string and parses it at query time), the
`gameStatus` integer, and the home/away team tricodes. -/
structure GameRecord where
  date : ℤ
  status : ℤ
  home : String
  away : String
  deriving DecidableEq, Repr

/-- The schedule partition (`ScheduleCache`). -/
structure ScheduleCache where
  teams : List (String × List GameRecord)
  updated_at : UpdatedAt
  deriving DecidableEq, Repr

/-- The unified in-memory cache document (`NBACacheData`). -/
structure NBACacheData where
  league_gamelog : LeagueGamelogCache
  schedule : ScheduleCache
  deriving DecidableEq, Repr

/-- Replace the value at the first occurrence of a key in an association list
(the effect, on a dict-as-alist, of mutating the object stored under `k`). -/
def alistSet {β : Type} (k : String) (v : β) : List (String × β) → List (String × β)
  | [] => []
  | (k2, v2) :: rest =>
    if k2 = k then (k2, v) :: rest else (k2, v2) :: alistSet k v rest

/-- Models `games_by_player[name].append(record)` with `setdefault`-style insertion
order: append to the existing entry, or add a new entry at the end. -/
def addRow {β : Type} (m : List (String × List β)) (name : String) (r : β) :
    List (String × List β) :=
  match m with
  | [] => [(name, [r])]
  | (k, v) :: rest =>
    if k = name then (k, v ++ [r]) :: rest else (k, v) :: addRow rest name r

/-- The partition-by-player loop of `_ensure_league_gamelog_loaded`: one row of
the upstream data frame is a (player name, record) pair. -/
def games_by_player (rows : List (String × GameLogRecord)) :
    List (String × List GameLogRecord) :=
  rows.foldl (fun m row => addRow m row.1 row.2) []

/-- Observable side effects of the retry loop, in order. -/
inductive Ev where
  | rateWait
  | fetch (attempt : ℕ)
  | sleep (seconds : ℕ)
  | save
  deriving DecidableEq, Repr

/-- The outcome of each fetch attempt: `none` means the attempt raised,
`some rows` the data-frame rows it returned. -/
def FetchOracle : Type := ℕ → Option (List (String × GameLogRecord))

/-- The body of the `for attempt in range(retries + 1)` loop of
`_ensure_league_gamelog_loaded`, starting at attempt index `attempt` with
`remaining` further attempts allowed after this one. Returns the cache
document after the loop and the event trace. -/
def runAttempts (fetches : FetchOracle) (now : DateTime) (st : NBACacheData) :
    ℕ → ℕ → NBACacheData × List Ev
  | attempt, remaining =>
    match fetches attempt with
    | some rows =>
      let st2 : NBACacheData :=
        { st with league_gamelog := { games := games_by_player rows, updated_at := .valid now } }
      (st2, [.rateWait, .fetch attempt, .save])
    | none =>
      match remaining with
      | 0 => (st, [.rateWait, .fetch attempt])
      | r + 1 =>
        let rest := runAttempts fetches now st (attempt + 1) r
        (rest.1, [.rateWait, .fetch attempt, .sleep (2 ^ attempt * 5)] ++ rest.2)

/-- Embeds `NBAClient._ensure_league_gamelog_loaded(retries)`. -/
def ensure_league_gamelog_loaded (fetches : FetchOracle) (retries : ℕ)
    (now : DateTime) (st : NBACacheData) : NBACacheData × List Ev :=
  if is_league_gamelog_stale st.league_gamelog.updated_at now then
    runAttempts fetches now st 0 retries
  else
    (st, [])

/-- Descending-by-date order on game records (the sort key of
`games.sort(key=lambda g: g["GAME_DATE"], reverse=True)`). -/
def byDateDesc (a b : GameLogRecord) : Prop := b.GAME_DATE ≤ a.GAME_DATE

instance : DecidableRel byDateDesc := fun a b => Nat.decLe b.GAME_DATE a.GAME_DATE

instance : IsTotal GameLogRecord byDateDesc := ⟨fun a b => Nat.le_total b.GAME_DATE a.GAME_DATE⟩

instance : IsTrans GameLogRecord byDateDesc := ⟨fun _ _ _ hab hbc => Nat.le_trans hbc hab⟩

/-- Models `games.sort(key=lambda g: g["GAME_DATE"], reverse=True)`: the stable
descending sort by date (stable sorts of a list under a total preorder are
extensionally unique, so insertion sort realizes Python's Timsort here). -/
def sort_games_desc (games : List GameLogRecord) : List GameLogRecord :=
  games.insertionSort byDateDesc

/-- The `for count in [5, 10, 15]` loop of `get_player_stats`, applied to the
already-sorted record list. -/
def player_windows (sorted_games : List GameLogRecord) : PlayerStats :=
  ([5, 10, 15] : List ℕ).foldl
    (fun s count =>
      if sorted_games.length ≥ count then
        s.setWindow count (extract_9cat_from_records (sorted_games.take count))
      else s)
    {}

/-- Steps 3–5 of `get_player_stats` as a function of the player's stored
records: sort descending, build the windows, and collapse a falsy (empty)
dict to `None` (`return stats_dict if stats_dict else None`); a missing or
empty record list yields `None` (`if not games: return None`). -/
def stats_from_records (games : List GameLogRecord) : Option PlayerStats :=
  if games.isEmpty then none
  else
    let stats := player_windows (sort_games_desc games)
    if stats.isEmptyDict then none else some stats

/-- Embeds `NBAClient.get_player_stats(full_name, retries)`. Returns the result and
the cache document after the call (the source's `games.sort(...)` mutates the
list held in the cache in place, which the state component records). -/
def get_player_stats (fetches : FetchOracle) (now : DateTime) (full_name : String)
    (st : NBACacheData) (retries : ℕ) : Option PlayerStats × NBACacheData :=
  let st1 := (ensure_league_gamelog_loaded fetches retries now st).1
  match st1.league_gamelog.games.lookup full_name with
  | none => (none, st1)
  | some games =>
    if games.isEmpty then (none, st1)
    else
      let sorted := sort_games_desc games
      let st2 : NBACacheData :=
        { st1 with
          league_gamelog :=
            { st1.league_gamelog with games := alistSet full_name sorted st1.league_gamelog.games } }
      let stats := player_windows sorted
      (if stats.isEmptyDict then none else some stats, st2)

/-- Models `team_games.setdefault(code, []).append(game_info)`. -/
def addGame (m : List (String × List GameRecord)) (code : String) (g : GameRecord) :
    List (String × List GameRecord) :=
  addRow m code g

/-- The schedule-partitioning loop of `_ensure_schedule_loaded`: each game is
appended to both the home and the away team's list. -/
def build_team_games (gs : List GameRecord) : List (String × List GameRecord) :=
  gs.foldl (fun m g => addGame (addGame m g.home g) g.away g) []

/-- Python truthiness of the stored `updated_at` string (`invalid` is a
non-empty string, hence truthy). -/
def updated_at_truthy : UpdatedAt → Bool
  | .empty => false
  | .invalid => true
  | .valid _ => true

/-- The freshness guard of `_ensure_schedule_loaded`:
`updated_at and age < SCHEDULE_TTL_HOURS`. -/
def schedule_fresh (st : NBACacheData) (now : DateTime) : Bool :=
  updated_at_truthy st.schedule.updated_at &&
    decide (get_schedule_age_hours st.schedule.updated_at now < SCHEDULE_TTL_HOURS)

/-- Embeds `NBAClient._ensure_schedule_loaded`: the single fetch attempt either
succeeds (`some gs`, the flat game list) and replaces the schedule partition,
or raises (`none`) and is caught, leaving the document unchanged. -/
def ensure_schedule_loaded (schedFetch : Option (List GameRecord)) (now : DateTime)
    (st : NBACacheData) : NBACacheData :=
  if schedule_fresh st now then st
  else
    match schedFetch with
    | some gs =>
      { st with schedule := { teams := build_team_games gs, updated_at := .valid now } }
    | none => st

/-- Python `s.upper()` (character-wise ASCII/Unicode simple uppercasing). -/
def pyUpper (s : String) : String := ⟨s.data.map Char.toUpper⟩

/-- The counting loop of `get_remaining_games`, over an already-ensured
schedule partition. -/
def count_remaining_games (teams : List (String × List GameRecord))
    (team_abbr : String) (start_date end_date today : ℤ) : ℕ :=
  ((teams.lookup (pyUpper team_abbr)).getD []).countP fun g =>
    decide (start_date ≤ g.date) && decide (g.date ≤ end_date) &&
      decide (today ≤ g.date) && (decide (g.status = 1) || decide (g.status = 2))

/-- Embeds `NBAClient.get_remaining_games(team_abbr, start_date, end_date)`;
`today` is `date.today()`. Returns the count and the cache document after
the call. -/
def get_remaining_games (schedFetch : Option (List GameRecord)) (now : DateTime)
    (team_abbr : String) (start_date end_date today : ℤ) (st : NBACacheData) :
    ℕ × NBACacheData :=
  let st1 := ensure_schedule_loaded schedFetch now st
  (count_remaining_games st1.schedule.teams team_abbr start_date end_date today, st1)

/-!
## JSON-level model of `_load_cache`

`_load_cache` performs no schema validation beyond `typing.cast` (a runtime
no-op): whatever JSON value sits under a partition key is retained. To settle
the load-path claims we model the parsed file as a JSON value and the
`try` body as a `Except`-valued computation whose `error` is any exception
caught by the `except Exception` handler.
-/

/-- A JSON value (the result of `json.loads`). -/
inductive JVal where
  | null
  | bool (b : Bool)
  | str (s : String)
  | num (q : ℚ)
  | arr (xs : List JVal)
  | obj (fields : List (String × JVal))

/-- Python truthiness of a JSON value. -/
def JVal.falsy : JVal → Bool
  | .null => true
  | .bool b => !b
  | .str s => s.isEmpty
  | .num q => decide (q = 0)
  | .arr xs => xs.isEmpty
  | .obj fs => fs.isEmpty

/-- Python `len(x)`: defined for strings, lists and dicts; `TypeError` otherwise. -/
def pyLen : JVal → Except Unit ℕ
  | .str s => .ok s.length
  | .arr xs => .ok xs.length
  | .obj fs => .ok fs.length
  | _ => .error ()

/-- Python `x.get(key, default)`: only dicts have `.get` (`AttributeError` otherwise). -/
def jGetDefault (j : JVal) (k : String) (default : JVal) : Except Unit JVal :=
  match j with
  | .obj fs => .ok ((fs.lookup k).getD default)
  | _ => .error ()

/-- Python `x[key]` with a string key: `KeyError` on a missing dict key,
`TypeError` on a non-dict. -/
def jSubscript (j : JVal) (k : String) : Except Unit JVal :=
  match j with
  | .obj fs =>
    match fs.lookup k with
    | some v => .ok v
    | none => .error ()
  | _ => .error ()

/-- Whether the `_get_schedule_age_hours()` call made by the load-path debug
message completes without an uncaught exception: `.get` needs a dict; a falsy
`updated_at` short-circuits; `fromisoformat` of a string either parses or
raises `ValueError`, which the inner handler catches; a truthy non-string
raises `TypeError`, which propagates. The numeric result does not influence
`_load_cache`. -/
def jScheduleAgeOk (sched : JVal) : Except Unit Unit :=
  match sched with
  | .obj fs =>
    let ua := (fs.lookup "updated_at").getD .null
    if ua.falsy then .ok ()
    else
      match ua with
      | .str _ => .ok ()
      | _ => .error ()
  | _ => .error ()

/-- The fresh empty gamelog partition, as a JSON value. -/
def freshGamelogJ : JVal := .obj [("games", .obj []), ("updated_at", .str "")]

/-- The fresh empty schedule partition, as a JSON value. -/
def freshScheduleJ : JVal := .obj [("teams", .obj []), ("updated_at", .str "")]

/-- The `try` body of `_load_cache` applied to the parsed file contents:
pull each partition with a fresh default, assign, then evaluate the debug
message (`len(...['games'])` and `_get_schedule_age_hours()`), whose
exceptions the surrounding handler also catches. -/
def load_cache_body (raw : JVal) : Except Unit (JVal × JVal) := do
  let lg ← jGetDefault raw "league_gamelog" freshGamelogJ
  let sched ← jGetDefault raw "schedule" freshScheduleJ
  let games ← jSubscript lg "games"
  let _ ← pyLen games
  let _ ← jScheduleAgeOk sched
  return (lg, sched)

/-- The state of the on-disk cache file. -/
inductive DiskState where
  | missing
  | unreadable
  | parsed (raw : JVal)

/-- Embeds `NBAClient._load_cache`: result is the in-memory pair
(gamelog partition, schedule partition) as JSON values. A missing file keeps
the constructor-initialized empty document; `json.loads` failure or any
exception in the body resets to the fresh empty document. -/
def load_cache (d : DiskState) : JVal × JVal :=
  match d with
  | .missing => (freshGamelogJ, freshScheduleJ)
  | .unreadable => (freshGamelogJ, freshScheduleJ)
  | .parsed raw =>
    match load_cache_body raw with
    | .ok p => p
    | .error _ => (freshGamelogJ, freshScheduleJ)

/-- Number of top-level fields of a JSON object (`0` otherwise); used to
separate concrete JSON values without deciding full equality. -/
def jTopFields : JVal → ℕ
  | .obj fs => fs.length
  | _ => 0

/-! ## Helper lemmas -/

theorem sort_games_desc_perm (l : List GameLogRecord) : (sort_games_desc l).Perm l :=
  List.perm_insertionSort byDateDesc l

theorem sort_games_desc_sorted (l : List GameLogRecord) :
    (sort_games_desc l).Pairwise byDateDesc :=
  List.sorted_insertionSort byDateDesc l

theorem sort_games_desc_length (l : List GameLogRecord) :
    (sort_games_desc l).length = l.length :=
  List.length_insertionSort byDateDesc l

theorem player_windows_empty_iff (l : List GameLogRecord) :
    (player_windows l).isEmptyDict = true ↔ l.length < 5 := by
  by_cases h5 : 5 ≤ l.length <;> by_cases h10 : 10 ≤ l.length <;>
    by_cases h15 : 15 ≤ l.length <;>
    simp [player_windows, PlayerStats.setWindow, PlayerStats.isEmptyDict, h5, h10, h15] <;>
    omega

theorem player_windows_window (l : List GameLogRecord) (n : ℕ)
    (hn : n ∈ ([5, 10, 15] : List ℕ)) :
    (player_windows l).window n =
      if n ≤ l.length then some (extract_9cat_from_records (l.take n)) else none := by
  fin_cases hn <;>
    by_cases h5 : 5 ≤ l.length <;> by_cases h10 : 10 ≤ l.length <;>
    by_cases h15 : 15 ≤ l.length <;>
    simp [player_windows, PlayerStats.setWindow, PlayerStats.window, h5, h10, h15] <;>
    omega

theorem lookup_alistSet_ne {β : Type} (k : String) (v : β) (l : List (String × β))
    (other : String) (h : other ≠ k) :
    (alistSet k v l).lookup other = l.lookup other := by
  induction l with
  | nil => rfl
  | cons hd tl ih =>
    obtain ⟨k2, v2⟩ := hd
    by_cases hk : k2 = k
    · subst hk
      simp [alistSet, List.lookup, beq_eq_false_iff_ne.mpr h]
    · simp [alistSet, hk, List.lookup]
      split <;> simp [ih]

theorem lookup_alistSet_self {β : Type} (k : String) (v : β) (l : List (String × β))
    (h : (l.lookup k).isSome) : (alistSet k v l).lookup k = some v := by
  induction l with
  | nil => simp [List.lookup] at h
  | cons hd tl ih =>
    obtain ⟨k2, v2⟩ := hd
    by_cases hk : k2 = k
    · subst hk
      simp [alistSet, List.lookup]
    · have hb : (k == k2) = false := beq_eq_false_iff_ne.mpr (Ne.symm hk)
      simp only [List.lookup, hb] at h
      simp [alistSet, hk, List.lookup, hb, ih h]

theorem runAttempts_all_fail (fetches : FetchOracle) (now : DateTime) (st : NBACacheData) :
    ∀ r a, (∀ i, a ≤ i → i ≤ a + r → fetches i = none) →
      (runAttempts fetches now st a r).1 = st := by
  intro r
  induction r with
  | zero =>
    intro a h
    have h0 := h a le_rfl (by omega)
    simp [runAttempts, h0]
  | succ r ih =>
    intro a h
    have h0 := h a le_rfl (by omega)
    simp only [runAttempts, h0]
    exact ih (a + 1) fun i hi1 hi2 => h i (by omega) (by omega)

theorem dtLtB_iff (a b : DateTime) : dtLtB a b = true ↔ dtlt a b := by
  simp [dtLtB, dtlt]

theorem dtLeB_iff (a b : DateTime) : dtLeB a b = true ↔ dtle a b := by
  simp [dtLeB, dtle, dtLtB_iff]

/-! ## Claim theorems -/

/-- C2: `is_league_gamelog_stale` returns true iff `updated_at` is unset, or
its calendar date is strictly before `now`'s date, or some configured daily
boundary time `b` satisfies `updated_at < b ≤ now`; in particular
`updated_at` = 14:59 today with `now` = 15:01 today is stale, `now` = 14:59
today is not stale, and `updated_at` = yesterday 23:00 with `now` = today
00:30 is stale. -/
theorem gamelog_staleness_iff (u : UpdatedAt) (now : DateTime) (hu : u ≠ UpdatedAt.invalid) :
    (is_league_gamelog_stale u now = true ↔
      u = UpdatedAt.empty ∨
        ∃ dt, u = UpdatedAt.valid dt ∧
          (dt.day < now.day ∨
            ∃ b ∈ PLAYER_STATS_INVALIDATION_TIMES,
              dtlt dt ⟨now.day, b⟩ ∧ dtle ⟨now.day, b⟩ now)) ∧
    is_league_gamelog_stale (UpdatedAt.valid ⟨0, 899⟩) ⟨0, 901⟩ = true ∧
    is_league_gamelog_stale (UpdatedAt.valid ⟨0, 899⟩) ⟨0, 899⟩ = false ∧
    is_league_gamelog_stale (UpdatedAt.valid ⟨-1, 1380⟩) ⟨0, 30⟩ = true := by
  refine ⟨?_, by decide, by decide, by decide⟩
  cases u with
  | empty => simp [is_league_gamelog_stale]
  | invalid => exact absurd rfl hu
  | valid dt =>
    by_cases hd : dt.day < now.day
    · simp [is_league_gamelog_stale, hd]
    · simp [is_league_gamelog_stale, hd, List.any_eq_true, dtLtB_iff, dtLeB_iff]

theorem gamelog_staleness_iff_witness :
    is_league_gamelog_stale (UpdatedAt.valid ⟨0, 899⟩) ⟨0, 901⟩ = true :=
  (gamelog_staleness_iff (UpdatedAt.valid ⟨0, 899⟩) ⟨0, 901⟩ (by decide)).2.1

/-- C10: a partition whose stored `updated_at` is non-empty but not parseable
as ISO-8601 is treated as stale rather than raising: the gamelog staleness
check returns true, the schedule age is reported as 999 hours, 999 exceeds
the 24-hour TTL, and so a schedule refresh is forced (a successful fetch
replaces the schedule partition). -/
theorem invalid_updated_at_forces_refresh (now : DateTime) (st : NBACacheData)
    (hsched : st.schedule.updated_at = UpdatedAt.invalid) :
    is_league_gamelog_stale UpdatedAt.invalid now = true ∧
    get_schedule_age_hours UpdatedAt.invalid now = 999 ∧
    SCHEDULE_TTL_HOURS < get_schedule_age_hours st.schedule.updated_at now ∧
    ∀ gs, (ensure_schedule_loaded (some gs) now st).schedule =
      { teams := build_team_games gs, updated_at := UpdatedAt.valid now } := by
  refine ⟨rfl, rfl, ?_, ?_⟩
  · rw [hsched]
    norm_num [get_schedule_age_hours, SCHEDULE_TTL_HOURS]
  · intro gs
    have hfresh : schedule_fresh st now = false := by
      simp only [schedule_fresh, hsched, updated_at_truthy, get_schedule_age_hours,
        SCHEDULE_TTL_HOURS, Bool.true_and, decide_eq_false_iff_not]
      norm_num
    simp [ensure_schedule_loaded, hfresh]

/-- A game record with the given shooting line and all other stats zero. -/
def shootingRecord (d : ℕ) (fgm fga ftm fta : ℚ) : GameLogRecord :=
  { GAME_DATE := d, PTS := 0, REB := 0, AST := 0, STL := 0, BLK := 0, TOV := 0, FG3M := 0,
    FGA := fga, FGM := fgm, FTA := fta, FTM := ftm }

/-- C1: on a non-empty record list (with the data model's non-negative attempt
counts), `_extract_9cat_from_records` returns FG% = (ΣFGM)/(ΣFGA) and
FT% = (ΣFTM)/(ΣFTA), each rounded to three decimals and defined as 0 when the
attempt sum is zero; in particular records (FGM/FGA) = (1/1) and (0/9) give
FG% = 1/10 = 0.100, which is not the arithmetic mean 0.5 of the per-game
percentages. -/
theorem pct_sum_based (rs : List GameLogRecord) (hne : rs ≠ [])
    (hfga : ∀ r ∈ rs, 0 ≤ r.FGA) (hfta : ∀ r ∈ rs, 0 ≤ r.FTA) :
    ((extract_9cat_from_records rs).FG_PCT =
      if statSum (·.FGA) rs = 0 then 0
      else roundTo 3 (statSum (·.FGM) rs / statSum (·.FGA) rs)) ∧
    ((extract_9cat_from_records rs).FT_PCT =
      if statSum (·.FTA) rs = 0 then 0
      else roundTo 3 (statSum (·.FTM) rs / statSum (·.FTA) rs)) ∧
    (extract_9cat_from_records
      [shootingRecord 1 1 1 0 0, shootingRecord 2 0 9 0 0]).FG_PCT = 1 / 10 ∧
    (1 : ℚ) / 10 ≠ ((1 / 1 : ℚ) + (0 / 9 : ℚ)) / 2 := by
  have round3_zero : roundTo 3 (0 : ℚ) = 0 := by
    norm_num [roundTo, roundHalfEven, Int.fdiv]
  have key : ∀ (f g : GameLogRecord → ℚ), (∀ r ∈ rs, 0 ≤ f r) →
      (roundTo 3 (if statSum f rs > 0 then statSum g rs / statSum f rs else 0) =
        if statSum f rs = 0 then 0 else roundTo 3 (statSum g rs / statSum f rs)) := by
    intro f g hf
    have hsum : 0 ≤ statSum f rs := by
      refine List.sum_nonneg ?_
      intro x hx
      obtain ⟨r, hr, rfl⟩ := List.mem_map.mp hx
      exact hf r hr
    rcases eq_or_lt_of_le hsum with h0 | hpos
    · rw [if_neg (by rw [← h0]; exact lt_irrefl 0), if_pos h0.symm, round3_zero]
    · rw [if_pos hpos, if_neg (ne_of_gt hpos)]
  refine ⟨?_, ?_, ?_, by norm_num⟩
  · simpa [extract_9cat_from_records] using key (·.FGA) (·.FGM) hfga
  · simpa [extract_9cat_from_records] using key (·.FTA) (·.FTM) hfta
  · norm_num [extract_9cat_from_records, statSum, shootingRecord, roundTo,
      roundHalfEven, Int.fdiv]

theorem pct_sum_based_witness :
    (extract_9cat_from_records
      [shootingRecord 1 1 1 0 0, shootingRecord 2 0 9 0 0]).FG_PCT = 1 / 10 :=
  (pct_sum_based [shootingRecord 1 1 1 0 0, shootingRecord 2 0 9 0 0]
    (by decide) (by decide) (by decide)).2.2.1

theorem invalid_updated_at_forces_refresh_witness :
    get_schedule_age_hours UpdatedAt.invalid ⟨0, 0⟩ = 999 :=
  (invalid_updated_at_forces_refresh ⟨0, 0⟩
    { league_gamelog := { games := [], updated_at := UpdatedAt.empty },
      schedule := { teams := [], updated_at := UpdatedAt.invalid } } rfl).2.1

/-- C6: with a fresh schedule partition, `get_remaining_games` returns the
number of the team's games whose date lies in `[start_date, end_date]`
inclusive, is not before today, and whose status is scheduled (1) or
live (2) — final (3) games and any game dated before today are excluded. -/
theorem remaining_games_spec (schedFetch : Option (List GameRecord)) (now : DateTime)
    (team_abbr : String) (start_date end_date today : ℤ) (st : NBACacheData)
    (hfresh : schedule_fresh st now = true) :
    (get_remaining_games schedFetch now team_abbr start_date end_date today st).1 =
      (((st.schedule.teams.lookup (pyUpper team_abbr)).getD []).filter fun g =>
        decide (start_date ≤ g.date ∧ g.date ≤ end_date ∧ today ≤ g.date ∧
          (g.status = 1 ∨ g.status = 2))).length := by
  simp only [get_remaining_games, ensure_schedule_loaded, hfresh, if_pos]
  rw [count_remaining_games, List.countP_eq_length_filter]
  refine congrArg List.length (List.filter_congr ?_)
  intro g _
  by_cases h1 : start_date ≤ g.date <;> by_cases h2 : g.date ≤ end_date <;>
    by_cases h3 : today ≤ g.date <;> by_cases h4 : g.status = 1 <;>
    by_cases h5 : g.status = 2 <;> simp [h1, h2, h3, h4, h5]

/-- The schedule of the C6 test vector: games yesterday (final), today
(scheduled) and today+3 (scheduled), with day 0 as today. -/
def exampleSchedule : ScheduleCache :=
  { teams := [("BOS",
      [{ date := -1, status := 3, home := "BOS", away := "NYK" },
       { date := 0, status := 1, home := "BOS", away := "NYK" },
       { date := 3, status := 1, home := "BOS", away := "NYK" }])],
    updated_at := UpdatedAt.valid ⟨0, 0⟩ }

theorem remaining_games_spec_witness :
    (get_remaining_games none ⟨0, 0⟩ "BOS" 0 5 0
      { league_gamelog := { games := [], updated_at := UpdatedAt.empty },
        schedule := exampleSchedule }).1 = 2 :=
  (remaining_games_spec none ⟨0, 0⟩ "BOS" 0 5 0
    { league_gamelog := { games := [], updated_at := UpdatedAt.empty },
      schedule := exampleSchedule }
    (by norm_num [schedule_fresh, exampleSchedule, updated_at_truthy,
      get_schedule_age_hours, SCHEDULE_TTL_HOURS])).trans (by decide)

/-- C3: if every fetch attempt fails, `_ensure_league_gamelog_loaded` returns
with the cache document exactly as it was (atomicity on error), and a
subsequent `get_player_stats` call still returns the answer computed from the
player's prior cached records. -/
theorem refresh_failure_is_atomic (fetches : FetchOracle) (retries : ℕ) (now : DateTime)
    (st : NBACacheData) (hfail : ∀ i, i ≤ retries → fetches i = none) :
    (ensure_league_gamelog_loaded fetches retries now st).1 = st ∧
    ∀ name, (get_player_stats fetches now name st retries).1 =
      stats_from_records ((st.league_gamelog.games.lookup name).getD []) := by
  have hens : (ensure_league_gamelog_loaded fetches retries now st).1 = st := by
    unfold ensure_league_gamelog_loaded
    split
    · exact runAttempts_all_fail fetches now st retries 0 fun i h0 hr => hfail i (by omega)
    · rfl
  refine ⟨hens, fun name => ?_⟩
  unfold get_player_stats
  rw [hens]
  cases hlk : st.league_gamelog.games.lookup name with
  | none => simp [stats_from_records, hlk]
  | some games =>
    by_cases hg : games = []
    · simp [stats_from_records, hlk, hg]
    · simp [stats_from_records, hlk, hg, List.isEmpty_iff]

/-- A cache document with one cached player ("A", one game) and an unset
gamelog timestamp (hence stale). -/
def staleOnePlayerState : NBACacheData :=
  { league_gamelog := { games := [("A", [shootingRecord 1 1 1 0 0])],
                        updated_at := UpdatedAt.empty },
    schedule := { teams := [], updated_at := UpdatedAt.empty } }

theorem refresh_failure_is_atomic_witness :
    (get_player_stats (fun _ => none) ⟨0, 0⟩ "A" staleOnePlayerState 2).1 =
      stats_from_records [shootingRecord 1 1 1 0 0] :=
  ((refresh_failure_is_atomic (fun _ => none) 2 ⟨0, 0⟩ staleOnePlayerState
      fun _ _ => rfl).2 "A").trans (congrArg stats_from_records (by decide))

/-- Whether a trace event is a fetch attempt. -/
def Ev.isFetch : Ev → Bool
  | .fetch _ => true
  | _ => false

/-- C8: with the default retry count (2 retries), a stale-cache refresh makes
at most 3 fetch attempts; the first success after `k` failures ends the loop
with trace rate-wait, fetch 0, sleep 5·2⁰, …, rate-wait, fetch k, save (each
attempt preceded by the flat rate-limit pause, consecutive attempts separated
by the doubling backoff sleep); if all attempts fail the trace is the three
attempts with backoff sleeps of 5 and 10 seconds and no save. -/
theorem retry_backoff_trace (fetches : FetchOracle) (now : DateTime) (st : NBACacheData)
    (hstale : is_league_gamelog_stale st.league_gamelog.updated_at now = true) :
    (∀ k, k ≤ 2 → (∀ i, i < k → fetches i = none) → fetches k ≠ none →
      (ensure_league_gamelog_loaded fetches 2 now st).2 =
        ((List.range k).flatMap fun i => [.rateWait, .fetch i, .sleep (2 ^ i * 5)]) ++
          [.rateWait, .fetch k, .save]) ∧
    ((∀ i, i ≤ 2 → fetches i = none) →
      (ensure_league_gamelog_loaded fetches 2 now st).2 =
        [.rateWait, .fetch 0, .sleep 5, .rateWait, .fetch 1, .sleep 10, .rateWait, .fetch 2]) ∧
    ((ensure_league_gamelog_loaded fetches 2 now st).2.countP Ev.isFetch ≤ 3) := by
  refine ⟨?_, ?_, ?_⟩
  · intro k hk hbefore hsucc
    obtain ⟨rows, hrows⟩ := Option.ne_none_iff_exists.mp hsucc
    interval_cases k
    · simp [ensure_league_gamelog_loaded, hstale, runAttempts, ← hrows] <;> decide
    · have h0 := hbefore 0 (by omega)
      simp [ensure_league_gamelog_loaded, hstale, runAttempts, h0, ← hrows] <;> decide
    · have h0 := hbefore 0 (by omega)
      have h1 := hbefore 1 (by omega)
      simp [ensure_league_gamelog_loaded, hstale, runAttempts, h0, h1, ← hrows] <;> decide
  · intro hfail
    have h0 := hfail 0 (by omega)
    have h1 := hfail 1 (by omega)
    have h2 := hfail 2 (by omega)
    simp [ensure_league_gamelog_loaded, hstale, runAttempts, h0, h1, h2]
  · cases hf0 : fetches 0 with
    | some rows => simp [ensure_league_gamelog_loaded, hstale, runAttempts, hf0, Ev.isFetch]
    | none =>
      cases hf1 : fetches 1 with
      | some rows => simp [ensure_league_gamelog_loaded, hstale, runAttempts, hf0, hf1, Ev.isFetch]
      | none =>
        cases hf2 : fetches 2 with
        | some rows =>
          simp [ensure_league_gamelog_loaded, hstale, runAttempts, hf0, hf1, hf2, Ev.isFetch]
        | none =>
          simp [ensure_league_gamelog_loaded, hstale, runAttempts, hf0, hf1, hf2, Ev.isFetch]

/-- An entirely empty cache document (both timestamps unset). -/
def emptyCacheState : NBACacheData :=
  { league_gamelog := { games := [], updated_at := UpdatedAt.empty },
    schedule := { teams := [], updated_at := UpdatedAt.empty } }

theorem retry_backoff_trace_witness :
    (ensure_league_gamelog_loaded (fun _ => none) 2 ⟨0, 0⟩ emptyCacheState).2 =
      [.rateWait, .fetch 0, .sleep 5, .rateWait, .fetch 1, .sleep 10, .rateWait, .fetch 2] :=
  (retry_backoff_trace (fun _ => none) ⟨0, 0⟩ emptyCacheState (by decide)).2.1 fun _ _ => rfl

theorem window_default (n : ℕ) : (({} : PlayerStats)).window n = none := by
  simp [PlayerStats.window, ite_self]

/-- A cache document with one cached player ("A", one game) whose gamelog
timestamp makes it fresh at instant (day 0, 16:40). -/
def freshOnePlayerState : NBACacheData :=
  { league_gamelog := { games := [("A", [shootingRecord 1 1 1 0 0])],
                        updated_at := UpdatedAt.valid ⟨0, 1000⟩ },
    schedule := { teams := [], updated_at := UpdatedAt.empty } }

/-- C4 counterexample: a player present in the gamelog partition with one
stored record (fewer than 5). The claim says `get_player_stats` returns a
present-but-empty structure; the code's
`return stats_dict if stats_dict else None` collapses the empty dict and
returns `None`. -/
theorem player_under_five_collapses_to_none :
    is_league_gamelog_stale freshOnePlayerState.league_gamelog.updated_at ⟨0, 1000⟩ = false ∧
    freshOnePlayerState.league_gamelog.games.lookup "A" = some [shootingRecord 1 1 1 0 0] ∧
    (get_player_stats (fun _ => none) ⟨0, 1000⟩ "A" freshOnePlayerState 2).1 = none := by
  decide

/-- C4 amended: with a fresh gamelog partition, `get_player_stats` returns
`None` exactly when the player's stored record list (empty if the player is
absent) has fewer than 5 records: a known player with 1–4 games yields `None`,
not a present-but-empty structure, because the empty structure is falsy and is
collapsed to `None`. -/
theorem player_stats_none_iff_under_five (fetches : FetchOracle) (now : DateTime)
    (name : String) (st : NBACacheData) (retries : ℕ)
    (hns : is_league_gamelog_stale st.league_gamelog.updated_at now = false) :
    ((get_player_stats fetches now name st retries).1 = none ↔
      ((st.league_gamelog.games.lookup name).getD []).length < 5) := by
  have hens : (ensure_league_gamelog_loaded fetches retries now st).1 = st := by
    simp [ensure_league_gamelog_loaded, hns]
  unfold get_player_stats
  rw [hens]
  cases hlk : st.league_gamelog.games.lookup name with
  | none => simp [hlk]
  | some games =>
    by_cases hg : games = []
    · simp [hlk, hg]
    · have hiff := player_windows_empty_iff (sort_games_desc games)
      rw [sort_games_desc_length] at hiff
      by_cases he : (player_windows (sort_games_desc games)).isEmptyDict = true
      · simp [hlk, hg, List.isEmpty_iff, he, hiff.mp he]
      · have hge : ¬games.length < 5 := fun hlen => he (hiff.mpr hlen)
        simp [hlk, hg, List.isEmpty_iff, he, hge]

theorem player_stats_none_iff_under_five_witness :
    (get_player_stats (fun _ => none) ⟨0, 1000⟩ "A" freshOnePlayerState 2).1 = none :=
  (player_stats_none_iff_under_five (fun _ => none) ⟨0, 1000⟩ "A" freshOnePlayerState 2
    (by decide)).mpr (by decide)

/-- C5: for a player present in a fresh gamelog partition with `k` stored
records and window size `N ∈ {5, 10, 15}`, the result of `get_player_stats`
(reading a `None` result as a structure with no keys) carries the `last_N`
key iff `k ≥ N`, and the value under `last_N` is the 9-cat aggregate over the
first `N` entries of a date-descending reordering of the stored records (the
`N` most recent by date); insufficient windows are absent, never zero-filled. -/
theorem window_keys_iff (fetches : FetchOracle) (now : DateTime) (name : String)
    (st : NBACacheData) (retries : ℕ) (games : List GameLogRecord)
    (hns : is_league_gamelog_stale st.league_gamelog.updated_at now = false)
    (hlk : st.league_gamelog.games.lookup name = some games) :
    ∀ n ∈ ([5, 10, 15] : List ℕ),
      ((((get_player_stats fetches now name st retries).1.getD {}).window n).isSome = true ↔
        n ≤ games.length) ∧
      (n ≤ games.length →
        ∃ s : List GameLogRecord, s.Perm games ∧ s.Pairwise byDateDesc ∧
          ((get_player_stats fetches now name st retries).1.getD {}).window n =
            some (extract_9cat_from_records (s.take n))) := by
  have hens : (ensure_league_gamelog_loaded fetches retries now st).1 = st := by
    simp [ensure_league_gamelog_loaded, hns]
  intro n hn
  have hn5 : 5 ≤ n := by fin_cases hn <;> omega
  by_cases hg : games = []
  · have hres : (get_player_stats fetches now name st retries).1 = none := by
      unfold get_player_stats
      rw [hens]
      simp [hlk, hg]
    rw [hres]
    subst hg
    refine ⟨?_, ?_⟩
    · simp [window_default]
      omega
    · intro hle
      simp at hle
      omega
  · have hres : (get_player_stats fetches now name st retries).1 =
        (if (player_windows (sort_games_desc games)).isEmptyDict = true then none
          else some (player_windows (sort_games_desc games))) := by
      unfold get_player_stats
      rw [hens]
      simp [hlk, hg, List.isEmpty_iff]
    have hwin := player_windows_window (sort_games_desc games) n hn
    rw [sort_games_desc_length] at hwin
    rw [hres]
    by_cases he : (player_windows (sort_games_desc games)).isEmptyDict = true
    · have hlt : games.length < 5 := by
        have := (player_windows_empty_iff (sort_games_desc games)).mp he
        rwa [sort_games_desc_length] at this
      refine ⟨?_, fun hle => absurd hle (by omega)⟩
      simp [he, window_default]
      omega
    · by_cases hnl : n ≤ games.length
      · refine ⟨?_, fun _ => ?_⟩
        · simp [he, hwin, hnl]
        · exact ⟨sort_games_desc games, sort_games_desc_perm games,
            sort_games_desc_sorted games, by simp [he, hwin, hnl]⟩
      · refine ⟨?_, fun hle => absurd hle hnl⟩
        simp [he, hwin, hnl]

/-- Seven game records for one player, dated days 1 through 7. -/
def sevenGames : List GameLogRecord :=
  [shootingRecord 1 1 1 0 0, shootingRecord 2 1 1 0 0, shootingRecord 3 1 1 0 0,
   shootingRecord 4 1 1 0 0, shootingRecord 5 1 1 0 0, shootingRecord 6 1 1 0 0,
   shootingRecord 7 1 1 0 0]

/-- A cache document with one cached player ("A", seven games) and a fresh
gamelog timestamp at instant (day 0, 16:40). -/
def freshSevenGameState : NBACacheData :=
  { league_gamelog := { games := [("A", sevenGames)],
                        updated_at := UpdatedAt.valid ⟨0, 1000⟩ },
    schedule := { teams := [], updated_at := UpdatedAt.empty } }

theorem window_keys_iff_witness :
    ((((get_player_stats (fun _ => none) ⟨0, 1000⟩ "A" freshSevenGameState 2).1.getD
      {}).window 5).isSome = true) ∧
    ¬ ((((get_player_stats (fun _ => none) ⟨0, 1000⟩ "A" freshSevenGameState 2).1.getD
      {}).window 10).isSome = true) :=
  ⟨(window_keys_iff (fun _ => none) ⟨0, 1000⟩ "A" freshSevenGameState 2 sevenGames
      (by decide) (by decide) 5 (by decide)).1.mpr (by decide),
    fun h => absurd ((window_keys_iff (fun _ => none) ⟨0, 1000⟩ "A" freshSevenGameState 2
      sevenGames (by decide) (by decide) 10 (by decide)).1.mp h) (by decide)⟩

/-- A fresh-gamelog cache document whose single player "A" has two records
stored in ascending date order. -/
def ascTwoGameState : NBACacheData :=
  { league_gamelog := { games := [("A", [shootingRecord 1 1 1 0 0, shootingRecord 2 2 2 0 0])],
                        updated_at := UpdatedAt.valid ⟨0, 1000⟩ },
    schedule := { teams := [], updated_at := UpdatedAt.empty } }

/-- C9 counterexample: a `get_player_stats` call that triggers no refresh does
modify the cache document — `games.sort(..., reverse=True)` sorts the queried
player's cached record list in place, so a list stored in ascending date
order comes back reversed. -/
theorem query_reorders_cached_records :
    is_league_gamelog_stale ascTwoGameState.league_gamelog.updated_at ⟨0, 1000⟩ = false ∧
    (get_player_stats (fun _ => none) ⟨0, 1000⟩ "A" ascTwoGameState 2).2 ≠ ascTwoGameState ∧
    (get_player_stats (fun _ => none) ⟨0, 1000⟩ "A"
        ascTwoGameState 2).2.league_gamelog.games.lookup "A" =
      some [shootingRecord 2 2 2 0 0, shootingRecord 1 1 1 0 0] ∧
    ascTwoGameState.league_gamelog.games.lookup "A" =
      some [shootingRecord 1 1 1 0 0, shootingRecord 2 2 2 0 0] := by
  decide

/-- C9 amended: a `get_player_stats` call that triggers no refresh leaves the
schedule partition, the gamelog timestamp and every other player's record
list unchanged, and preserves the queried player's records as a multiset; the
only mutation is that the queried player's list may be reordered (sorted
date-descending in place). The partition is otherwise replaced only wholesale
by a successful refresh. -/
theorem query_preserves_contents (fetches : FetchOracle) (now : DateTime) (name : String)
    (st : NBACacheData) (retries : ℕ)
    (hns : is_league_gamelog_stale st.league_gamelog.updated_at now = false) :
    (get_player_stats fetches now name st retries).2.schedule = st.schedule ∧
    (get_player_stats fetches now name st retries).2.league_gamelog.updated_at =
      st.league_gamelog.updated_at ∧
    (∀ other, other ≠ name →
      (get_player_stats fetches now name st retries).2.league_gamelog.games.lookup other =
        st.league_gamelog.games.lookup other) ∧
    (((get_player_stats fetches now name st retries).2.league_gamelog.games.lookup name).getD
        []).Perm ((st.league_gamelog.games.lookup name).getD []) := by
  have hens : (ensure_league_gamelog_loaded fetches retries now st).1 = st := by
    simp [ensure_league_gamelog_loaded, hns]
  unfold get_player_stats
  rw [hens]
  cases hlk : st.league_gamelog.games.lookup name with
  | none => simp [hlk]
  | some games =>
    by_cases hg : games = []
    · simp [hlk, hg]
    · have hsome : (st.league_gamelog.games.lookup name).isSome := by
        rw [hlk]; rfl
      refine ⟨by simp [hlk, hg], by simp [hlk, hg], fun other hother => ?_, ?_⟩
      · simp only [hlk]
        simp [hg, List.isEmpty_iff, lookup_alistSet_ne name (sort_games_desc games)
          st.league_gamelog.games other hother]
      · simp only [hlk]
        simp [hg, List.isEmpty_iff,
          lookup_alistSet_self name (sort_games_desc games) st.league_gamelog.games hsome]
        exact sort_games_desc_perm games

theorem query_preserves_contents_witness :
    (get_player_stats (fun _ => none) ⟨0, 1000⟩ "A" ascTwoGameState 2).2.schedule =
      ascTwoGameState.schedule :=
  (query_preserves_contents (fun _ => none) ⟨0, 1000⟩ "A" ascTwoGameState 2 (by decide)).1

/-- The parsed contents of a cache file whose `league_gamelog` partition is
schema-mismatched JSON (it lacks `updated_at`) in a way that raises nothing
during the load path. -/
def mismatchedRaw : JVal :=
  .obj [("league_gamelog", .obj [("games", .obj [])]), ("schedule", freshScheduleJ)]

/-- C7: `_load_cache` never raises, and on a missing file or unreadable JSON
it leaves the fresh empty document; but on schema-mismatched JSON the claim
fails: the comment in the source calls the `cast` step "type-safe
migration/validation", yet `cast` validates nothing at runtime, so a parsed
`league_gamelog` object lacking `updated_at` is retained as-is instead of
being replaced by the fresh empty structure (later partition accesses like
`_is_league_gamelog_stale`'s `["updated_at"]` then raise `KeyError`). -/
theorem load_retains_mismatched_partition :
    load_cache DiskState.missing = (freshGamelogJ, freshScheduleJ) ∧
    load_cache DiskState.unreadable = (freshGamelogJ, freshScheduleJ) ∧
    load_cache (DiskState.parsed mismatchedRaw) = (JVal.obj [("games", JVal.obj [])], freshScheduleJ) ∧
    (load_cache (DiskState.parsed mismatchedRaw)).1 ≠ freshGamelogJ := by
  refine ⟨rfl, rfl, rfl, ?_⟩
  have hval : (load_cache (DiskState.parsed mismatchedRaw)).1 = JVal.obj [("games", JVal.obj [])] :=
    rfl
  rw [hval]
  intro h
  have hlen := congrArg jTopFields h
  simp [jTopFields, freshGamelogJ] at hlen

end TFO
